import Mathlib

/-!
Verification of the GONet_Wizard core against its specification.

The definitions below are shallow embeddings of functions in
`GONet_Wizard/GONet_utils/src/gonetfile.py`, `.../extract.py` and
`.../extract_app/shapes.py`.  Machine integers are modelled as `Nat`
with explicit reduction modulo `2^16` where the source works on numpy
`uint16`; pixel values, coordinates and radii are modelled as
rationals (the source uses IEEE float64 — none of the properties below
depends on float rounding); the bearing produced by
`np.degrees(np.arctan2(dy, dx))` is modelled as a real number via
`Complex.arg`.
-/

namespace GONet

/-! ### Raw-container constants (`gonetfile.py`, class `GONetFile`) -/

def RAW_FILE_OFFSET : Nat := 18711040

def RAW_HEADER_SIZE : Nat := 32768

def RAW_DATA_OFFSET : Nat := RAW_FILE_OFFSET - RAW_HEADER_SIZE

def PIXEL_PER_LINE : Nat := 4056

def PIXEL_PER_COLUMN : Nat := 3040

def PADDED_LINE_BYTES : Nat := 6112

/-- `USED_LINE_BYTES = int(PIXEL_PER_LINE * 12 / 8)` (exact: 6084). -/
def USED_LINE_BYTES : Nat := PIXEL_PER_LINE * 12 / 8

/-! ### 12-bit Bayer unpacking (`GONetFile._parse_raw_file`)

The inner loop of `_parse_raw_file` reads one padded line, keeps its
first `USED_LINE_BYTES` bytes as `gg` and stores, for every 3-byte
group `(b0, b1, b2) = (gg[3k], gg[3k+1], gg[3k+2])`:

    s[2k,   i] = (gg[0::3].astype(uint16) << 4) + (gg[2::3].astype(uint16) & 15)
    s[2k+1, i] = (gg[1::3].astype(uint16) << 4) + (gg[2::3].astype(uint16) >> 4)

`decodeRow` produces the column `s[:, i]` of decoded samples in order:
index `2k` is the even-row sample of group `k`, index `2k+1` the odd
one.  numpy `uint16` arithmetic wraps modulo `2^16`, embedded by `u16`.
-/

/-- numpy `uint16` wrap-around. -/
def u16 (n : Nat) : Nat := n % 65536

/-- Sample stream of one line, two 12-bit samples per 3-byte group. -/
def decodeRow : List Nat → List Nat
  | b0 :: b1 :: b2 :: rest =>
      u16 (u16 (b0 <<< 4) + (b2 &&& 15)) ::
      u16 (u16 (b1 <<< 4) + (b2 >>> 4)) ::
      decodeRow rest
  | _ => []

/-- `gg = np.frombuffer(bdLine[0:USED_LINE_BYTES], dtype=np.uint8)`:
only the first `USED_LINE_BYTES` bytes of a padded line are decoded. -/
def decodeLine (row : List Nat) : List Nat := decodeRow (row.take USED_LINE_BYTES)

/-- For a "high nibble" shifted into place, adding a value below 16 is
the same as bitwise or. -/
theorem shiftLeft_four_add_eq_or (a r : Nat) (hr : r < 16) :
    a <<< 4 + r = a <<< 4 ||| r := by
  have hr' : r < 2 ^ 4 := by norm_num at hr ⊢; exact hr
  apply Nat.eq_of_testBit_eq
  intro i
  rw [Nat.testBit_lor]
  have hmul : a <<< 4 + r = 2 ^ 4 * a + r := by
    rw [Nat.shiftLeft_eq]; ring
  rw [hmul, Nat.testBit_mul_pow_two_add a hr' i]
  by_cases hi : i < 4
  · have hni : ¬ i ≥ 4 := by omega
    simp [hi, Nat.testBit_shiftLeft, hni]
  · have hge : i ≥ 4 := by omega
    have hrf : r.testBit i = false :=
      Nat.testBit_eq_false_of_lt
        (lt_of_lt_of_le hr' (Nat.pow_le_pow_right (by norm_num) hge))
    simp [hi, Nat.testBit_shiftLeft, hge, hrf]

/-- The even sample of a group computed in `uint16` arithmetic agrees
with the claimed bit formula `(b0 << 4) | (b2 & 0x0F)`. -/
theorem unpack_lo (b0 b2 : Nat) (h0 : b0 < 256) (h2 : b2 < 256) :
    u16 (u16 (b0 <<< 4) + (b2 &&& 15)) = (b0 <<< 4) ||| (b2 &&& 15) := by
  have hs : b0 <<< 4 = b0 * 16 := by rw [Nat.shiftLeft_eq]
  have hr : b2 &&& 15 < 16 := by
    have h15 : b2 &&& 15 ≤ 15 := Nat.and_le_right
    omega
  have e1 : u16 (b0 <<< 4) = b0 <<< 4 := Nat.mod_eq_of_lt (by rw [hs]; omega)
  rw [e1]
  have e2 : u16 (b0 <<< 4 + (b2 &&& 15)) = b0 <<< 4 + (b2 &&& 15) :=
    Nat.mod_eq_of_lt (by rw [hs]; omega)
  rw [e2]
  exact shiftLeft_four_add_eq_or _ _ hr

/-- The odd sample of a group computed in `uint16` arithmetic agrees
with the claimed bit formula `(b1 << 4) | (b2 >> 4)`. -/
theorem unpack_hi (b1 b2 : Nat) (h1 : b1 < 256) (h2 : b2 < 256) :
    u16 (u16 (b1 <<< 4) + (b2 >>> 4)) = (b1 <<< 4) ||| (b2 >>> 4) := by
  have hs : b1 <<< 4 = b1 * 16 := by rw [Nat.shiftLeft_eq]
  have hr : b2 >>> 4 < 16 := by
    have hd : b2 >>> 4 = b2 / 2 ^ 4 := Nat.shiftRight_eq_div_pow b2 4
    rw [hd]; omega
  have e1 : u16 (b1 <<< 4) = b1 <<< 4 := Nat.mod_eq_of_lt (by rw [hs]; omega)
  rw [e1]
  have e2 : u16 (b1 <<< 4 + b2 >>> 4) = b1 <<< 4 + b2 >>> 4 :=
    Nat.mod_eq_of_lt (by rw [hs]; omega)
  rw [e2]
  exact shiftLeft_four_add_eq_or _ _ hr

theorem decodeRow_get (k : Nat) :
    ∀ (l : List Nat), (∀ b ∈ l, b < 256) →
    ∀ b0 b1 b2 : Nat, l[3 * k]? = some b0 → l[3 * k + 1]? = some b1 →
    l[3 * k + 2]? = some b2 →
    (decodeRow l)[2 * k]? = some ((b0 <<< 4) ||| (b2 &&& 15)) ∧
    (decodeRow l)[2 * k + 1]? = some ((b1 <<< 4) ||| (b2 >>> 4)) := by
  induction k with
  | zero =>
    intro l hb b0 b1 b2 h0 h1 h2
    match l with
    | [] => simp at h0
    | [x] => simp at h1
    | [x, y] => simp at h2
    | x :: y :: z :: rest =>
      simp only [Nat.mul_zero, List.getElem?_cons_zero, List.getElem?_cons_succ,
        Nat.zero_add] at h0 h1 h2
      obtain rfl : x = b0 := by
        simpa using h0
      obtain rfl : y = b1 := by
        simpa using h1
      obtain rfl : z = b2 := by
        simpa using h2
      have hx : x < 256 := hb _ (by simp)
      have hy : y < 256 := hb _ (by simp)
      have hz : z < 256 := hb _ (by simp)
      refine ⟨?_, ?_⟩
      · show (decodeRow (x :: y :: z :: rest))[0]? = _
        simp [decodeRow, unpack_lo x z hx hz]
      · show (decodeRow (x :: y :: z :: rest))[1]? = _
        simp [decodeRow, unpack_hi y z hy hz]
  | succ k ih =>
    intro l hb b0 b1 b2 h0 h1 h2
    match l with
    | [] => simp at h0
    | [x] => simp at h1
    | [x, y] => simp at h2
    | x :: y :: z :: rest =>
      have i0 : 3 * (k + 1) = 3 * k + 1 + 1 + 1 := by ring
      have i1 : 3 * (k + 1) + 1 = 3 * k + 1 + 1 + 1 + 1 := by ring
      have i2 : 3 * (k + 1) + 2 = 3 * k + 2 + 1 + 1 + 1 := by ring
      rw [i0] at h0; rw [i1] at h1; rw [i2] at h2
      simp only [List.getElem?_cons_succ] at h0 h1 h2
      have h0' : rest[3 * k]? = some b0 := by simpa using h0
      have h1' : rest[3 * k + 1]? = some b1 := h1
      have h2' : rest[3 * k + 2]? = some b2 := h2
      have hbr : ∀ b ∈ rest, b < 256 := fun b hbm => hb b (by simp [hbm])
      have hrec := ih rest hbr b0 b1 b2 h0' h1' h2'
      have j0 : 2 * (k + 1) = 2 * k + 1 + 1 := by ring
      have j1 : 2 * (k + 1) + 1 = 2 * k + 1 + 1 + 1 := by ring
      refine ⟨?_, ?_⟩
      · show (decodeRow (x :: y :: z :: rest))[2 * (k + 1)]? = _
        rw [j0]
        simp only [decodeRow, List.getElem?_cons_succ]
        simpa using hrec.1
      · show (decodeRow (x :: y :: z :: rest))[2 * (k + 1) + 1]? = _
        rw [j1]
        simp only [decodeRow, List.getElem?_cons_succ]
        exact hrec.2

/-- C1: for every row of the raw stream, interpreting the first
`USED_LINE_BYTES` bytes as consecutive 3-byte groups `(b0, b1, b2)`,
the decoder produces two samples per group:
`pixel[2k] = (b0 <<< 4) ||| (b2 &&& 0x0F)` and
`pixel[2k+1] = (b1 <<< 4) ||| (b2 >>> 4)`. -/
theorem decodeRow_unpacks (row : List Nat) (hb : ∀ b ∈ row, b < 256)
    (k b0 b1 b2 : Nat) (hk : 3 * k + 2 < USED_LINE_BYTES)
    (h0 : row[3 * k]? = some b0) (h1 : row[3 * k + 1]? = some b1)
    (h2 : row[3 * k + 2]? = some b2) :
    (decodeLine row)[2 * k]? = some ((b0 <<< 4) ||| (b2 &&& 0xF)) ∧
    (decodeLine row)[2 * k + 1]? = some ((b1 <<< 4) ||| (b2 >>> 4)) := by
  have hb' : ∀ b ∈ row.take USED_LINE_BYTES, b < 256 :=
    fun b hbm => hb b (List.mem_of_mem_take hbm)
  have t0 : (row.take USED_LINE_BYTES)[3 * k]? = some b0 := by
    rw [List.getElem?_take_of_lt (by omega)]; exact h0
  have t1 : (row.take USED_LINE_BYTES)[3 * k + 1]? = some b1 := by
    rw [List.getElem?_take_of_lt (by omega)]; exact h1
  have t2 : (row.take USED_LINE_BYTES)[3 * k + 2]? = some b2 := by
    rw [List.getElem?_take_of_lt (by omega)]; exact h2
  exact decodeRow_get k (row.take USED_LINE_BYTES) hb' b0 b1 b2 t0 t1 t2

/-- Witness for C1 at the spec's concrete triplet `(0x12, 0x34, 0x56)`:
the two decoded samples are `0x126` and `0x345`. -/
theorem decodeRow_unpacks_witness :
    (decodeLine [0x12, 0x34, 0x56])[0]? = some 0x126 ∧
    (decodeLine [0x12, 0x34, 0x56])[1]? = some 0x345 := by
  have h := decodeRow_unpacks [0x12, 0x34, 0x56] (by decide) 0 0x12 0x34 0x56
    (by decide) (by rfl) (by rfl) (by rfl)
  exact ⟨by simpa using h.1, by simpa using h.2⟩

/-! ### `scale_uint12_to_16bit_range` (`gonetfile.py`)

    x = np.asarray(x)
    if np.any((x < 0) | (x > max_uint12)): raise ValueError(...)
    scaled = (x / max_uint12) * max_uint16
    return scaled

Values are modelled as rationals; `max_uint12 = 4095`, `max_uint16 = 65535`.
-/

/-- Per-value linear rescale `(x / 4095) * 65535`. -/
def scaleVal (x : ℚ) : ℚ := x / 4095 * 65535

/-- Embedding of `scale_uint12_to_16bit_range` on an array of values. -/
def scale_uint12_to_16bit_range (xs : List ℚ) : Except String (List ℚ) :=
  if xs.any (fun x => decide (x < 0) || decide (x > 4095)) then
    Except.error "Input values must be in the range [0, 4095] for uint12."
  else
    Except.ok (xs.map scaleVal)

/-- C5: on inputs inside `[0, 4095]` the rescale succeeds with `x/4095*65535`,
which lies in `[0, 65535]`, is (strictly) monotone, maps `0 ↦ 0` and
`4095 ↦ 65535`; any input containing a value outside `[0, 4095]` makes it
fail with the out-of-range error. -/
theorem scale_uint12_spec (xs : List ℚ) :
    ((∀ x ∈ xs, 0 ≤ x ∧ x ≤ 4095) →
      scale_uint12_to_16bit_range xs = Except.ok (xs.map scaleVal)) ∧
    (∀ x : ℚ, 0 ≤ x → x ≤ 4095 → 0 ≤ scaleVal x ∧ scaleVal x ≤ 65535) ∧
    (∀ x y : ℚ, x ≤ y → scaleVal x ≤ scaleVal y) ∧
    (∀ x y : ℚ, x < y → scaleVal x < scaleVal y) ∧
    scaleVal 0 = 0 ∧ scaleVal 4095 = 65535 ∧
    ((∃ x ∈ xs, x < 0 ∨ 4095 < x) →
      ∃ e, scale_uint12_to_16bit_range xs = Except.error e) := by
  have hrw : ∀ x : ℚ, scaleVal x = x * (65535 / 4095) := by
    intro x; unfold scaleVal; ring
  refine ⟨?_, ?_, ?_, ?_, ?_, ?_, ?_⟩
  · intro h
    unfold scale_uint12_to_16bit_range
    rw [if_neg]
    simp only [List.any_eq_true, Bool.or_eq_true, decide_eq_true_eq, not_exists]
    intro x hx
    rcases hx with ⟨hmem, hor⟩
    rcases h x hmem with ⟨h0, h1⟩
    rcases hor with hlt | hgt
    · exact absurd h0 (not_le.mpr hlt)
    · exact absurd h1 (not_le.mpr hgt)
  · intro x h0 h1
    rw [hrw]
    constructor
    · exact mul_nonneg h0 (by norm_num)
    · calc x * (65535 / 4095) ≤ 4095 * (65535 / 4095) :=
            mul_le_mul_of_nonneg_right h1 (by norm_num)
        _ = 65535 := by norm_num
  · intro x y hxy
    rw [hrw, hrw]
    exact mul_le_mul_of_nonneg_right hxy (by norm_num)
  · intro x y hxy
    rw [hrw, hrw]
    exact mul_lt_mul_of_pos_right hxy (by norm_num)
  · norm_num [scaleVal]
  · norm_num [scaleVal]
  · rintro ⟨x, hx, hout⟩
    refine ⟨"Input values must be in the range [0, 4095] for uint12.", ?_⟩
    unfold scale_uint12_to_16bit_range
    rw [if_pos]
    simp only [List.any_eq_true, Bool.or_eq_true, decide_eq_true_eq]
    exact ⟨x, hx, by rcases hout with h | h; exacts [Or.inl h, Or.inr h]⟩

/-- Witness for C5: `[0, 4095]` scales to `[0, 65535]`; `[4096]` fails. -/
theorem scale_uint12_spec_witness :
    scale_uint12_to_16bit_range [0, 4095] = Except.ok [0, 65535] ∧
    (∃ e, scale_uint12_to_16bit_range [4096] = Except.error e) := by
  constructor
  · have hok := (scale_uint12_spec [0, 4095]).1 (by
      intro x hx
      simp only [List.mem_cons, List.not_mem_nil, or_false] at hx
      rcases hx with rfl | rfl <;> norm_num)
    rw [hok]
    norm_num [scaleVal]
  · exact (scale_uint12_spec [4096]).2.2.2.2.2.2 ⟨4096, by simp, by norm_num⟩

/-! ### `extract_region` (`extract.py`)

    values = np.array(data)[mask]
    return extraction_output(
        total_counts = np.sum(values), mean_counts = np.mean(values),
        std = np.std(values), npixels = values.size)

A 2-D array is a list of rows.  `np.mean` and `np.std` of an empty
selection return `nan`, embedded as `none`; `np.std` is the population
(`ddof = 0`) standard deviation.
-/

/-- Row-major boolean-mask selection `np.array(data)[mask]`
(for same-shape `data` and `mask`). -/
def maskSelect (data : List (List ℚ)) (mask : List (List Bool)) : List ℚ :=
  (data.flatten.zip mask.flatten).filterMap
    (fun dm => if dm.2 then some dm.1 else none)

/-- `np.sum` (0 on an empty array). -/
def npSum (l : List ℚ) : ℚ := l.sum

/-- `np.mean`; `none` models the `nan` returned on an empty array. -/
def npMean (l : List ℚ) : Option ℚ :=
  if l.isEmpty then none else some (l.sum / l.length)

/-- Population variance `mean((x - mean(l))^2)` of a nonempty list. -/
def popVar (l : List ℚ) : ℚ :=
  (l.map (fun x => (x - l.sum / l.length) ^ 2)).sum / l.length

/-- `np.std`: population standard deviation; `none` models `nan` on empty. -/
noncomputable def npStd (l : List ℚ) : Option ℝ :=
  if l.isEmpty then none else some (Real.sqrt (popVar l))

/-- Result record of `extract_region` (class `extraction_output`). -/
structure extraction_output where
  total_counts : ℚ
  mean_counts : Option ℚ
  std : Option ℝ
  npixels : ℕ

/-- Embedding of `extract_region`. -/
noncomputable def extract_region (data : List (List ℚ)) (mask : List (List Bool)) :
    extraction_output :=
  { total_counts := npSum (maskSelect data mask)
    mean_counts := npMean (maskSelect data mask)
    std := npStd (maskSelect data mask)
    npixels := (maskSelect data mask).length }

/-- C10: for same-shape data and mask, `extract_region` returns the sum,
arithmetic mean, population standard deviation and count of the selected
values; on an empty selection it returns `0` for the sum and the count and
`nan` (`none`) for mean and std, without failing. -/
theorem extract_region_spec (data : List (List ℚ)) (mask : List (List Bool))
    (hshape : mask.map List.length = data.map List.length) :
    (extract_region data mask).total_counts = (maskSelect data mask).sum ∧
    (extract_region data mask).npixels = (maskSelect data mask).length ∧
    (maskSelect data mask ≠ [] →
      (extract_region data mask).mean_counts =
        some ((maskSelect data mask).sum / (maskSelect data mask).length) ∧
      ((extract_region data mask).mean_counts.getD 0) *
        ((maskSelect data mask).length : ℚ) = (maskSelect data mask).sum ∧
      (extract_region data mask).std = some (Real.sqrt (popVar (maskSelect data mask)))) ∧
    (maskSelect data mask = [] →
      (extract_region data mask).total_counts = 0 ∧
      (extract_region data mask).npixels = 0 ∧
      (extract_region data mask).mean_counts = none ∧
      (extract_region data mask).std = none) := by
  refine ⟨rfl, rfl, ?_, ?_⟩
  · intro hne
    have hem : (maskSelect data mask).isEmpty = false := by
      simpa [List.isEmpty_iff] using hne
    have hlen : ((maskSelect data mask).length : ℚ) ≠ 0 := by
      simpa using fun h => hne (List.length_eq_zero.mp h)
    refine ⟨?_, ?_, ?_⟩
    · simp [extract_region, npMean, hem]
    · simp only [extract_region, npMean, hem, Bool.false_eq_true, if_false,
        Option.getD_some]
      field_simp
    · simp [extract_region, npStd, hem]
  · intro hemp
    refine ⟨?_, ?_, ?_, ?_⟩
    · simp [extract_region, npSum, hemp]
    · simp [extract_region, hemp]
    · simp [extract_region, npMean, hemp]
    · simp [extract_region, npStd, hemp]

/-- Witness for C10 at `data = [[1, 3]]`: with the full mask the stats are
`(4, 2, 1, 2)`; with the empty mask they are `(0, none, none, 0)`. -/
theorem extract_region_spec_witness :
    (extract_region [[1, 3]] [[true, true]]).total_counts = 4 ∧
    (extract_region [[1, 3]] [[true, true]]).npixels = 2 ∧
    (extract_region [[1, 3]] [[true, true]]).mean_counts = some 2 ∧
    (extract_region [[1, 3]] [[true, true]]).std = some 1 ∧
    (extract_region [[1, 3]] [[false, false]]).total_counts = 0 ∧
    (extract_region [[1, 3]] [[false, false]]).mean_counts = none ∧
    (extract_region [[1, 3]] [[false, false]]).std = none ∧
    (extract_region [[1, 3]] [[false, false]]).npixels = 0 := by
  have hsel : maskSelect [[1, 3]] [[true, true]] = [1, 3] := by
    simp [maskSelect]
  have hsel2 : maskSelect [[1, 3]] [[false, false]] = [] := by
    simp [maskSelect]
  have h := extract_region_spec [[1, 3]] [[true, true]] (by simp)
  have h2 := extract_region_spec [[1, 3]] [[false, false]] (by simp)
  have hne : maskSelect [[1, 3]] [[true, true]] ≠ [] := by rw [hsel]; simp
  obtain ⟨ht, hn, hrest, -⟩ := h
  obtain ⟨hm, hmul, hstd⟩ := hrest hne
  obtain ⟨-, -, -, hempty⟩ := h2
  obtain ⟨et, en, em, es⟩ := hempty hsel2
  refine ⟨?_, ?_, ?_, ?_, et, em, es, en⟩
  · rw [ht, hsel]; norm_num
  · rw [hn, hsel]; rfl
  · rw [hm, hsel]; norm_num
  · rw [hstd, hsel]
    have hv : popVar [1, 3] = 1 := by
      norm_num [popVar]
    rw [hv]
    simp

/-! ### `GONetFile.__init__` validation (`gonetfile.py`)

The constructor checks, in order: `filename` is a string or `None`
(guaranteed here by typing), each plane is a `numpy.ndarray` (by typing)
with `ndim == 2` (else `ValueError`), `meta` is a dict or `None` (by
typing) and `filetype` a `FileType` or `None` (by typing).  It performs
no comparison between the three shapes.  `astype(np.float64)` is the
identity on our rational model.
-/

/-- Python error values surfaced by the constructor. -/
inductive PyErr where
  | typeError (msg : String)
  | valueError (msg : String)
deriving DecidableEq

/-- A numpy array of arbitrary dimensionality: `shape` with row-major `data`. -/
structure NpArr where
  shape : List Nat
  data : List ℚ
deriving DecidableEq

/-- File-type tags of `FileType(Enum)`. -/
inductive FileType where
  | science
  | flat
  | bias
  | dark
deriving DecidableEq

/-- The constructed state of `GONetFile` (shape-generic model). -/
structure GONetFileND where
  filename : Option String
  red : NpArr
  green : NpArr
  blue : NpArr
  meta : Option (List (String × String))
  filetype : Option FileType
deriving DecidableEq

/-- Embedding of `GONetFile.__init__`. -/
def gonetInit (filename : Option String) (red green blue : NpArr)
    (meta : Option (List (String × String))) (filetype : Option FileType) :
    Except PyErr GONetFileND :=
  if red.shape.length ≠ 2 then Except.error (PyErr.valueError "red must be a 2D array")
  else if green.shape.length ≠ 2 then Except.error (PyErr.valueError "green must be a 2D array")
  else if blue.shape.length ≠ 2 then Except.error (PyErr.valueError "blue must be a 2D array")
  else Except.ok ⟨filename, red, green, blue, meta, filetype⟩

/-- Did a Python call return normally? -/
def exceptOk {ε α : Type} (e : Except ε α) : Bool :=
  match e with
  | Except.ok _ => true
  | Except.error _ => false

/-- C2 counterexample: the constructor accepts three 2-D planes whose
shapes differ (`1×1`, `1×2`, `1×1`), so it does not reject mismatched
shapes. -/
theorem gonetInit_accepts_mismatched_shapes :
    exceptOk (gonetInit (some "f") ⟨[1, 1], [0]⟩ ⟨[1, 2], [0, 0]⟩ ⟨[1, 1], [0]⟩
      none (some FileType.science)) = true ∧
    ([1, 1] : List Nat) ≠ [1, 2] := by
  exact ⟨rfl, by decide⟩

/-- C2 (amended): the constructor validates only that each plane is
2-dimensional — it succeeds exactly when all three planes have
`ndim = 2`, with no check that the three shapes agree. -/
theorem gonetInit_ok_iff_2d (filename : Option String) (red green blue : NpArr)
    (meta : Option (List (String × String))) (filetype : Option FileType) :
    exceptOk (gonetInit filename red green blue meta filetype) = true ↔
      (red.shape.length = 2 ∧ green.shape.length = 2 ∧ blue.shape.length = 2) := by
  unfold gonetInit exceptOk
  split_ifs with h1 h2 h3 <;> simp_all

/-! ### GONetFile arithmetic (`_operate`, operator overloads, `__getitem__`)

For the arithmetic claims the planes are 2-D; a plane is a list of rows
of rationals.  A Python binary array operation is modelled as a pair
`(result, state of the left operand array after the call)`:
`operator.add/sub/mul/truediv` allocate a fresh array and leave their
arguments untouched, while `operator.iadd` adds into its left argument
in place and returns that same (now modified) array.  `__init__` copies
(`astype(np.float64)`), so the instance built by `_operate` never
aliases the operand arrays, but the `self` instance keeps referencing
the array that `iadd` mutated.  Rationals stand in for float64: the
claims settled here concern metadata propagation and mutation, not the
`inf`/`nan` behaviour of float division.
-/

/-- A 2-D channel plane. -/
abbrev Plane := List (List ℚ)

/-- The five overloaded elementwise operators routed through `_operate`. -/
inductive Op where
  | add
  | sub
  | mul
  | div
  | iadd
deriving DecidableEq

/-- The scalar function each operator computes. -/
def Op.fn : Op → ℚ → ℚ → ℚ
  | Op.add, a, b => a + b
  | Op.sub, a, b => a - b
  | Op.mul, a, b => a * b
  | Op.div, a, b => a / b
  | Op.iadd, a, b => a + b

/-- Whether the Python operator writes into its left argument
(`operator.iadd` does; the others allocate). -/
def Op.mutates : Op → Bool
  | Op.iadd => true
  | _ => false

/-- Elementwise combination of two same-shaped planes. -/
def ewise (f : ℚ → ℚ → ℚ) (a b : Plane) : Plane :=
  List.zipWith (List.zipWith f) a b

/-- Elementwise combination of a plane and a scalar (numpy broadcast). -/
def ewiseS (f : ℚ → ℚ → ℚ) (a : Plane) (s : ℚ) : Plane :=
  a.map (List.map (fun v => f v s))

/-- numpy basic slice `arr[r1:r2, c1:c2]` (non-negative bounds). -/
def sliceP (r1 r2 c1 c2 : ℕ) (a : Plane) : Plane :=
  ((a.drop r1).take (r2 - r1)).map (fun row => (row.drop c1).take (c2 - c1))

/-- `op(a, b)` on two arrays: the result and the new state of `a`. -/
def Op.onPlane (op : Op) (a b : Plane) : Plane × Plane :=
  (ewise op.fn a b, if op.mutates then ewise op.fn a b else a)

/-- `op(a, s)` on an array and a scalar: result and new state of `a`. -/
def Op.onScalar (op : Op) (a : Plane) (s : ℚ) : Plane × Plane :=
  (ewiseS op.fn a s, if op.mutates then ewiseS op.fn a s else a)

/-- Value-level model of a constructed `GONetFile` (planes always 2-D). -/
structure GFile where
  filename : Option String
  red : Plane
  green : Plane
  blue : Plane
  meta : Option (List (String × String))
  filetype : Option FileType
deriving DecidableEq

/-- The `other` operand of `_operate`: a `GONetFile` or a scalar. -/
inductive Operand where
  | image (g : GFile)
  | scalar (q : ℚ)

/-- Embedding of `GONetFile._operate`.  Returns the instance it
constructs together with the state of `self` after the call (whose
planes `operator.iadd` mutates in place). -/
def operate (self : GFile) (other : Operand) (op : Op) : GFile × GFile :=
  match other with
  | Operand.image g =>
      (⟨none, (op.onPlane self.red g.red).1, (op.onPlane self.green g.green).1,
        (op.onPlane self.blue g.blue).1, none, none⟩,
       { self with
          red := (op.onPlane self.red g.red).2
          green := (op.onPlane self.green g.green).2
          blue := (op.onPlane self.blue g.blue).2 })
  | Operand.scalar s =>
      (⟨self.filename, (op.onScalar self.red s).1, (op.onScalar self.green s).1,
        (op.onScalar self.blue s).1, self.meta, self.filetype⟩,
       { self with
          red := (op.onScalar self.red s).2
          green := (op.onScalar self.green s).2
          blue := (op.onScalar self.blue s).2 })

/-- `__getitem__`: `self._operate(key, lambda arr, k=key: arr[k])`, i.e.
the scalar (metadata-preserving) branch of `_operate` with a pure
slicing function; numpy basic slicing never writes to `arr`. -/
def getitem (self : GFile) (r1 r2 c1 c2 : ℕ) : GFile × GFile :=
  (⟨self.filename, sliceP r1 r2 c1 c2 self.red, sliceP r1 r2 c1 c2 self.green,
    sliceP r1 r2 c1 c2 self.blue, self.meta, self.filetype⟩, self)

/-- C7: combining two GONetFile instances with any of the elementwise
operators (add, subtract, multiply, divide, in-place add) yields a result
with `meta = None`, `filename = None` and `filetype = None`; combining
with a scalar preserves all three. -/
theorem operate_metadata_propagation (g1 g2 : GFile) (s : ℚ) (op : Op) :
    ((operate g1 (Operand.image g2) op).1.meta = none ∧
     (operate g1 (Operand.image g2) op).1.filename = none ∧
     (operate g1 (Operand.image g2) op).1.filetype = none) ∧
    ((operate g1 (Operand.scalar s) op).1.meta = g1.meta ∧
     (operate g1 (Operand.scalar s) op).1.filename = g1.filename ∧
     (operate g1 (Operand.scalar s) op).1.filetype = g1.filetype) := by
  cases op <;> simp [operate]

/-- C9 counterexample: in-place addition of two instances mutates the
left operand's red plane from `[[1]]` to `[[3]]` — the operand does not
stay unchanged. -/
theorem iadd_mutates_operand :
    (operate ⟨some "f", [[1]], [[1]], [[1]], none, some FileType.science⟩
      (Operand.image ⟨none, [[2]], [[2]], [[2]], none, none⟩) Op.iadd).2.red = [[3]] ∧
    ([[3]] : Plane) ≠ [[1]] := by
  constructor
  · norm_num [operate, Op.onPlane, Op.mutates, ewise, Op.fn]
  · intro h
    have := List.head_eq_of_cons_eq h
    norm_num at this

/-- C9 (amended): add, subtract, multiply, divide and spatial slicing
leave the operand instance untouched and return a fresh instance with
the elementwise result; in-place add also returns a fresh instance, but
additionally mutates the left operand's planes to the elementwise sum
(its other fields are untouched). -/
theorem operate_mutation_spec (g1 g2 : GFile) (s : ℚ) (op : Op) (r1 r2 c1 c2 : ℕ) :
    ((operate g1 (Operand.image g2) op).1.red = ewise op.fn g1.red g2.red ∧
     (operate g1 (Operand.scalar s) op).1.red = ewiseS op.fn g1.red s) ∧
    (operate g1 (Operand.image g2) op).2 =
      (if op = Op.iadd then
        { g1 with
            red := ewise (· + ·) g1.red g2.red
            green := ewise (· + ·) g1.green g2.green
            blue := ewise (· + ·) g1.blue g2.blue }
       else g1) ∧
    (operate g1 (Operand.scalar s) op).2 =
      (if op = Op.iadd then
        { g1 with
            red := ewiseS (· + ·) g1.red s
            green := ewiseS (· + ·) g1.green s
            blue := ewiseS (· + ·) g1.blue s }
       else g1) ∧
    (getitem g1 r1 r2 c1 c2).2 = g1 ∧
    (getitem g1 r1 r2 c1 c2).1.red = sliceP r1 r2 c1 c2 g1.red := by
  have hplus : Op.iadd.fn = (· + ·) := rfl
  cases op <;>
    simp [operate, Op.onPlane, Op.onScalar, Op.mutates, Op.fn, getitem, hplus]

/-! ### Region masks (`extract.py`, `extract_app/shapes.py`)

`mask_sector` and `mask_annular_sector` build a boolean grid over the
pixels `(x, y)` of a 2-D array; both are wrapped by the
`normalize_start_end_angles` decorator, which replaces `start_angle`
and `end_angle` by `normalize_angle_deg` of themselves before the body
runs.  The per-pixel predicates below embed exactly the body's test;
`np.degrees(np.arctan2(dy, dx))` is `atan2Deg`.
-/

/-- Python float modulo `a % 360` for positive modulus:
`a - 360 * floor(a / 360)`, in `[0, 360)`. -/
def pymod (a b : ℚ) : ℚ := a - b * (⌊a / b⌋ : ℚ)

/-- Embedding of `normalize_angle_deg`: range `(-180, 180]`,
with `0 ↦ 0` and `180 ↦ 180` kept as they are. -/
def normalize_angle_deg (angle : ℚ) : ℚ :=
  if pymod angle 360 = 180 then 180
  else if pymod angle 360 = 0 then 0
  else if pymod angle 360 > 180 then pymod angle 360 - 360
  else pymod angle 360

/-- `np.degrees(np.arctan2(dy, dx))` for rational offsets: the argument
of `dx + dy·i` (range `(-π, π]`, `arg 0 = 0 = atan2(0, 0)`), in degrees. -/
noncomputable def atan2Deg (dy dx : ℚ) : ℝ :=
  Complex.arg ⟨(dx : ℝ), (dy : ℝ)⟩ * 180 / Real.pi

/-- Embedding of `mask_sector(data, x0, y0, radius, start_angle,
end_angle)` as the predicate of membership of pixel `(x, y)` in the
returned mask: `radial_mask & angular_mask` with
`radial = (x-x0)² + (y-y0)² < radius²` and the angular test on the
normalized angles (`[s, e]` if `e ≥ s`, wrap-around otherwise). -/
def mask_sector (x0 y0 radius start_angle end_angle : ℚ) (x y : ℕ) : Prop :=
  (((x : ℚ) - x0) ^ 2 + ((y : ℚ) - y0) ^ 2 < radius ^ 2) ∧
  (if normalize_angle_deg end_angle ≥ normalize_angle_deg start_angle then
    ((normalize_angle_deg start_angle : ℝ) ≤ atan2Deg ((y : ℚ) - y0) ((x : ℚ) - x0) ∧
     atan2Deg ((y : ℚ) - y0) ((x : ℚ) - x0) ≤ (normalize_angle_deg end_angle : ℝ))
   else
    ((normalize_angle_deg start_angle : ℝ) ≤ atan2Deg ((y : ℚ) - y0) ((x : ℚ) - x0) ∨
     atan2Deg ((y : ℚ) - y0) ((x : ℚ) - x0) ≤ (normalize_angle_deg end_angle : ℝ)))

/-- Embedding of `mask_annular_sector(...)` as a per-pixel predicate:
`radial = r_inner² ≤ (x-x0)² + (y-y0)² ≤ r_outer²` and the same angular
test as `mask_sector`. -/
def mask_annular_sector (x0 y0 r_inner r_outer start_angle end_angle : ℚ)
    (x y : ℕ) : Prop :=
  (r_inner ^ 2 ≤ ((x : ℚ) - x0) ^ 2 + ((y : ℚ) - y0) ^ 2 ∧
   ((x : ℚ) - x0) ^ 2 + ((y : ℚ) - y0) ^ 2 ≤ r_outer ^ 2) ∧
  (if normalize_angle_deg end_angle ≥ normalize_angle_deg start_angle then
    ((normalize_angle_deg start_angle : ℝ) ≤ atan2Deg ((y : ℚ) - y0) ((x : ℚ) - x0) ∧
     atan2Deg ((y : ℚ) - y0) ((x : ℚ) - x0) ≤ (normalize_angle_deg end_angle : ℝ))
   else
    ((normalize_angle_deg start_angle : ℝ) ≤ atan2Deg ((y : ℚ) - y0) ((x : ℚ) - x0) ∨
     atan2Deg ((y : ℚ) - y0) ((x : ℚ) - x0) ≤ (normalize_angle_deg end_angle : ℝ)))

/-- The plain full-disk mask the spec expects in claim C3:
`(x-x0)² + (y-y0)² < r²` with no angular restriction. -/
def fullDisk (x0 y0 radius : ℚ) (x y : ℕ) : Prop :=
  ((x : ℚ) - x0) ^ 2 + ((y : ℚ) - y0) ^ 2 < radius ^ 2

theorem normalize_neg180 : normalize_angle_deg (-180) = 180 := by
  have hf : (⌊(-180 : ℚ) / 360⌋ : ℤ) = -1 := by
    rw [Int.floor_eq_iff]
    norm_num
  unfold normalize_angle_deg pymod
  rw [hf]
  norm_num

theorem normalize_pos180 : normalize_angle_deg 180 = 180 := by
  have hf : (⌊(180 : ℚ) / 360⌋ : ℤ) = 0 := by
    rw [Int.floor_eq_iff]
    norm_num
  unfold normalize_angle_deg pymod
  rw [hf]
  norm_num

/-- Bearing of a pixel straight to the right of the centre is 0°. -/
theorem atan2Deg_zero_pos (dx : ℚ) (h : 0 < dx) : atan2Deg 0 dx = 0 := by
  unfold atan2Deg
  have he : (⟨(dx : ℝ), ((0 : ℚ) : ℝ)⟩ : ℂ) = ((dx : ℝ) : ℂ) := by
    apply Complex.ext <;> simp
  rw [he, Complex.arg_ofReal_of_nonneg (by positivity)]
  simp

/-- Bearing of a pixel straight to the left of the centre is 180°. -/
theorem atan2Deg_zero_neg (dx : ℚ) (h : dx < 0) : atan2Deg 0 dx = 180 := by
  unfold atan2Deg
  have he : (⟨(dx : ℝ), ((0 : ℚ) : ℝ)⟩ : ℂ) = ((dx : ℝ) : ℂ) := by
    apply Complex.ext <;> simp
  rw [he, Complex.arg_ofReal_of_neg (by exact_mod_cast h)]
  field_simp

/-- C3: the claim fails on the code.  For a 3×3 grid, centre `(1, 1)`,
radius `3/2` and angles `(-180, 180)`, the pixel `(2, 1)` lies in the
full disk, but `mask_sector` excludes it: after normalization both
angles are `180`, so the angular test keeps only pixels at bearing
exactly 180° — a degenerate wedge, not the full disk (while the GUI's
`sector_path` draws a full circle for the same input). -/
theorem mask_sector_full_angles_not_full_disk :
    fullDisk 1 1 (3 / 2) 2 1 ∧ ¬ mask_sector 1 1 (3 / 2) (-180) 180 2 1 := by
  constructor
  · unfold fullDisk
    norm_num
  · unfold mask_sector
    rw [normalize_neg180, normalize_pos180]
    have hang : atan2Deg (((1 : ℕ) : ℚ) - 1) (((2 : ℕ) : ℚ) - 1) = 0 := by
      rw [show (((1 : ℕ) : ℚ) - 1) = (0 : ℚ) by norm_num,
        show (((2 : ℕ) : ℚ) - 1) = (1 : ℚ) by norm_num]
      exact atan2Deg_zero_pos 1 (by norm_num)
    rintro ⟨-, hang2⟩
    rw [if_pos le_rfl] at hang2
    rw [hang] at hang2
    have h180 : ((180 : ℚ) : ℝ) ≤ 0 := hang2.1
    norm_num at h180

/-- C4 counterexample: with centre `(3, 0)`, radii `1 < 2` and angles
`(-180, 180)`, the pixel `(1, 0)` (squared distance exactly `r_outer²`,
bearing 180°) is in the annular mask but not in the disk difference, so
the two masks are not equal pixel-for-pixel. -/
theorem mask_annular_not_disk_difference :
    mask_annular_sector 3 0 1 2 (-180) 180 1 0 ∧
    ¬ (mask_sector 3 0 2 (-180) 180 1 0 ∧ ¬ mask_sector 3 0 1 (-180) 180 1 0) := by
  have hang : atan2Deg (((0 : ℕ) : ℚ) - 0) (((1 : ℕ) : ℚ) - 3) = 180 := by
    rw [show (((0 : ℕ) : ℚ) - 0) = (0 : ℚ) by norm_num,
      show (((1 : ℕ) : ℚ) - 3) = (-2 : ℚ) by norm_num]
    exact atan2Deg_zero_neg (-2) (by norm_num)
  constructor
  · unfold mask_annular_sector
    rw [normalize_neg180, normalize_pos180, if_pos le_rfl]
    refine ⟨⟨by norm_num, by norm_num⟩, ?_⟩
    rw [hang]
    norm_num
  · rintro ⟨⟨hrad, -⟩, -⟩
    norm_num at hrad

/-- C4 (amended): for every pixel whose squared distance from the centre
differs from `r_outer²`, the annular mask coincides with the disk
difference `circle(r_outer) AND NOT circle(r_inner)`; only the outer
boundary circle separates them (included by the annular mask, excluded
by the strict disk). -/
theorem mask_annular_eq_disk_difference_off_boundary
    (x0 y0 r1 r2 : ℚ) (x y : ℕ) (hr : r1 < r2)
    (hb : ((x : ℚ) - x0) ^ 2 + ((y : ℚ) - y0) ^ 2 ≠ r2 ^ 2) :
    (mask_annular_sector x0 y0 r1 r2 (-180) 180 x y ↔
      (mask_sector x0 y0 r2 (-180) 180 x y ∧
       ¬ mask_sector x0 y0 r1 (-180) 180 x y)) := by
  unfold mask_annular_sector mask_sector
  constructor
  · rintro ⟨⟨hlo, hhi⟩, hang⟩
    have hlt : ((x : ℚ) - x0) ^ 2 + ((y : ℚ) - y0) ^ 2 < r2 ^ 2 :=
      lt_of_le_of_ne hhi hb
    exact ⟨⟨hlt, hang⟩, fun hcon => absurd hcon.1 (not_lt.mpr hlo)⟩
  · rintro ⟨⟨hlt, hang⟩, hnot⟩
    have hlo : r1 ^ 2 ≤ ((x : ℚ) - x0) ^ 2 + ((y : ℚ) - y0) ^ 2 := by
      by_contra hcon
      exact hnot ⟨not_le.mp hcon, hang⟩
    exact ⟨⟨hlo, le_of_lt hlt⟩, hang⟩

/-- Witness for the amended C4 at centre `(0, 0)`, radii `1 < 2`,
pixel `(4, 0)` (squared distance 16 ≠ 4). -/
theorem mask_annular_eq_disk_difference_off_boundary_witness :
    (1 : ℚ) < 2 ∧ (((4 : ℕ) : ℚ) - 0) ^ 2 + (((0 : ℕ) : ℚ) - 0) ^ 2 ≠ (2 : ℚ) ^ 2 ∧
    (mask_annular_sector 0 0 1 2 (-180) 180 4 0 ↔
      (mask_sector 0 0 2 (-180) 180 4 0 ∧ ¬ mask_sector 0 0 1 (-180) 180 4 0)) := by
  refine ⟨by norm_num, by norm_num, ?_⟩
  exact mask_annular_eq_disk_difference_off_boundary 0 0 1 2 4 0 (by norm_num)
    (by norm_num)

/-! ### Annular-sector validation (`extract_app/shapes.py`)

`annulus_sector_path` (the GUI overlay builder) is the only place with
radius checks; `mask_annular_sector` (the mask builder) has none.  Only
the error behaviour of `annulus_sector_path` matters to claim C6, so
its Plotly return value is collapsed to `Unit`; after the two checks
its body (arc sampling and string formatting) has no failing path.
-/

/-- Embedding of the `annulus_sector_path` checks:
`if r_inner <= 0 or r_outer <= 0: raise ValueError("Radii must be positive.")`
`if r_inner >= r_outer: raise ValueError("r_inner must be smaller than r_outer.")` -/
def annulus_sector_path (cx cy r_outer r_inner start_angle end_angle : ℚ) :
    Except String Unit :=
  if r_inner ≤ 0 ∨ r_outer ≤ 0 then Except.error "Radii must be positive."
  else if r_inner ≥ r_outer then
    Except.error "r_inner must be smaller than r_outer."
  else Except.ok ()

/-- `mask_annular_sector` as a Python callable: its body contains no
`raise` and no validation, so it always returns (the mask predicate). -/
def mask_annular_sector_run (x0 y0 r_inner r_outer start_angle end_angle : ℚ) :
    Except String (ℕ → ℕ → Prop) :=
  Except.ok (mask_annular_sector x0 y0 r_inner r_outer start_angle end_angle)

/-- C6 counterexample: building the annular mask with the invalid radii
`r_inner = 2 ≥ r_outer = 1` does not fail — `mask_annular_sector`
returns a mask, because it performs no radius validation. -/
theorem mask_annular_sector_no_validation :
    exceptOk (mask_annular_sector_run 0 0 2 1 (-180) 180) = true ∧ (1 : ℚ) ≤ 2 := by
  exact ⟨rfl, by norm_num⟩

/-- C6 (amended): the radius validation lives in the GUI shape builder
`annulus_sector_path`, which succeeds exactly when both radii are
positive and `r_inner < r_outer`; the mask builder
`mask_annular_sector` itself never fails for any input. -/
theorem annulus_sector_path_validation
    (cx cy r_outer r_inner sa ea x0 y0 ri ro sa2 ea2 : ℚ) :
    (exceptOk (annulus_sector_path cx cy r_outer r_inner sa ea) = true ↔
      (0 < r_inner ∧ 0 < r_outer ∧ r_inner < r_outer)) ∧
    exceptOk (mask_annular_sector_run x0 y0 ri ro sa2 ea2) = true := by
  refine ⟨?_, rfl⟩
  unfold annulus_sector_path exceptOk
  split_ifs with h1 h2
  · simp only [Bool.false_eq_true, false_iff]
    rintro ⟨ha, hb, -⟩
    rcases h1 with h | h
    · exact absurd ha (not_lt.mpr h)
    · exact absurd hb (not_lt.mpr h)
  · simp only [Bool.false_eq_true, false_iff]
    rintro ⟨-, -, hc⟩
    exact absurd hc (not_lt.mpr h2)
  · simp only [true_iff]
    push_neg at h1
    exact ⟨h1.1, h1.2, lt_of_not_ge h2⟩

/-! ### SVG path parsing and polygon masks (`extract.py`)

`parse_svg_path` runs `re.findall(r"[ML]\s*([\d\.]+),([\d\.]+)", path_str)`
and converts each captured pair with `float`.  The two capture classes
`[\d.]+` exclude the `,` and the whitespace that delimit them, so the
regex engine's greedy matching is maximal-munch and deterministic; the
scanner below reproduces `re.findall` exactly on this pattern: attempt
a match at each position from the left, emit non-overlapping matches,
resume scanning after each match.  `mask_from_closed_path` then
classifies every pixel centre against the polygon; the point-in-polygon
test itself lives in matplotlib (`Path.contains_points`), outside this
repository, and is modelled from the spec.
-/

/-- The regex class `[\d.]`: a decimal digit or a dot. -/
def numClass (c : Char) : Bool := c.isDigit || c == '.'

/-- The regex class `\s` on ASCII input. -/
def pySpace (c : Char) : Bool :=
  c == ' ' || c == '\t' || c == '\n' || c == '\r' || c == '\x0b' || c == '\x0c'

/-- One attempted match of `[ML]\s*([\d.]+),([\d.]+)` at the head of
the input; returns the two captured groups and the remainder after the
match. -/
def tryMatch : List Char → Option ((List Char × List Char) × List Char)
  | [] => none
  | c :: cs =>
    if c = 'M' ∨ c = 'L' then
      if (cs.dropWhile pySpace).takeWhile numClass = [] then none
      else
        match (cs.dropWhile pySpace).dropWhile numClass with
        | ',' :: r2 =>
          if r2.takeWhile numClass = [] then none
          else some (((cs.dropWhile pySpace).takeWhile numClass,
            r2.takeWhile numClass), r2.dropWhile numClass)
        | _ => none
    else none

/-- `re.findall`: left-to-right scan with non-overlapping matches.  The
input length bounds the number of scanning steps, so structural fuel
keeps the definition kernel-reducible. -/
def findallFuel : Nat → List Char → List (List Char × List Char)
  | 0, _ => []
  | _ + 1, [] => []
  | fuel + 1, c :: cs =>
    match tryMatch (c :: cs) with
    | some (p, rest) => p :: findallFuel fuel rest
    | none => findallFuel fuel cs

/-- `re.findall(r"[ML]\s*([\d\.]+),([\d\.]+)", s)`. -/
def findall (s : List Char) : List (List Char × List Char) :=
  findallFuel s.length s

/-- Numeric value of a digit string (most significant first). -/
def digitsVal (t : List Char) : ℕ :=
  t.foldl (fun acc c => 10 * acc + (c.toNat - 48)) 0

/-- Python `float(token)` for a token drawn from `[\d.]+`: accepted iff
it has at most one dot and at least one digit; `none` models the
`ValueError` Python raises otherwise (e.g. on `"1.2.3"` or `"."`). -/
def pyFloat? (t : List Char) : Option ℚ :=
  if ¬ t.all numClass ∨ t = [] then none
  else if t.count '.' = 0 then some (digitsVal t)
  else if t.count '.' = 1 then
    let intPart := t.takeWhile (fun c => c != '.')
    let frac := (t.dropWhile (fun c => c != '.')).tail
    if intPart = [] ∧ frac = [] then none
    else some ((digitsVal intPart : ℚ) + (digitsVal frac : ℚ) / (10 : ℚ) ^ frac.length)
  else none

/-- Embedding of `parse_svg_path`: all matches in written order, each
converted with `float` (whose failure propagates as the ValueError). -/
def parse_svg_path (s : List Char) : Except String (List (ℚ × ℚ)) :=
  match (findall s).mapM (fun p => do
    let a ← pyFloat? p.1
    let b ← pyFloat? p.2
    pure ((a : ℚ), (b : ℚ))) with
  | some l => Except.ok l
  | none => Except.error "could not convert string to float"

/-- Modelled from the spec: `matplotlib.path.Path(poly).contains_points`
is external to this repository; the spec prescribes classifying "every
pixel center using a standard point-in-polygon test against that
polygon".  Embedded as the even-odd crossing test: an edge
`(xi,yi)→(xj,yj)` is crossed by the leftward horizontal ray from
`(px,py)` iff the edge spans `py` vertically and meets the horizontal
line strictly to the right of `px`. -/
def edgeCrosses (px py xi yi xj yj : ℚ) : Bool :=
  (decide (yi > py) != decide (yj > py)) &&
    decide (px < (xj - xi) * (py - yi) / (yj - yi) + xi)

/-- Modelled from the spec: even-odd point-in-polygon test over the
closed polygon on the given vertices. -/
def pointInPolygon (poly : List (ℚ × ℚ)) (px py : ℚ) : Bool :=
  ((poly.zip (poly.rotate 1)).countP
    (fun e => edgeCrosses px py e.1.1 e.1.2 e.2.1 e.2.2)) % 2 = 1

/-- Embedding of `mask_from_closed_path`: parse the path, then classify
every pixel centre `(x, y)` of the data grid. -/
def mask_from_closed_path (s : List Char) : Except String (ℕ → ℕ → Bool) :=
  (parse_svg_path s).map
    (fun poly => fun x y => pointInPolygon poly (x : ℚ) (y : ℚ))

/-- C8 counterexample: for the path `M -1,0 L 5,0 L 5,5 Z`, whose first
vertex has a negative coordinate, the parser silently drops that vertex
(the regex classes `[\d.]+` cannot match a minus sign) — it does not
parse "exactly the listed vertices". -/
theorem parse_svg_path_drops_negative_vertex :
    parse_svg_path ("M -1,0 L 5,0 L 5,5 Z".toList) = Except.ok [(5, 0), (5, 5)] := by
  have hf : findall ("M -1,0 L 5,0 L 5,5 Z".toList) =
      [(['5'], ['0']), (['5'], ['5'])] := by rfl
  have h5 : pyFloat? ['5'] = some 5 := by
    unfold pyFloat?
    rw [if_neg (by decide), if_pos (by decide)]
    norm_num [show digitsVal ['5'] = 5 from rfl]
  have h0 : pyFloat? ['0'] = some 0 := by
    unfold pyFloat?
    rw [if_neg (by decide), if_pos (by decide)]
    norm_num [show digitsVal ['0'] = 0 from rfl]
  have hm : (List.mapM (fun p => do
      let a ← pyFloat? p.1
      let b ← pyFloat? p.2
      pure ((a : ℚ), (b : ℚ))) [(['5'], ['0']), (['5'], ['5'])]
        : Option (List (ℚ × ℚ))) = some [(5, 0), (5, 5)] := by
    rw [List.mapM_cons, List.mapM_cons, List.mapM_nil]
    simp [h5, h0]
  unfold parse_svg_path
  rw [hf, hm]

/-! ### Rendering well-formed paths (claim C8)

`renderSegs`/`renderPath` produce exactly the path strings of the
claim's grammar `M x,y (L x,y)* Z` (single spaces) from a list of
coordinate-token pairs.
-/

/-- Tail segments `" L x,y"`.  The grouping mirrors how the scanner
consumes them. -/
def renderSegs : List (List Char × List Char) → List Char
  | [] => []
  | p :: rest => ' ' :: 'L' :: ' ' :: (p.1 ++ ',' :: (p.2 ++ renderSegs rest))

/-- The full path string `M x0,y0 L x1,y1 ... Z`. -/
def renderPath : List (List Char × List Char) → List Char
  | [] => []
  | p :: rest => 'M' :: ' ' :: (p.1 ++ ',' :: (p.2 ++ (renderSegs rest ++ [' ', 'Z'])))

/-- A well-formed coordinate token: nonempty, drawn from `[\d.]+`, and
accepted by `float`. -/
def GoodTok (t : List Char) : Prop :=
  t ≠ [] ∧ (∀ c ∈ t, numClass c = true) ∧ (pyFloat? t).isSome = true

/-- The numeric value of a parseable token. -/
def tokVal (t : List Char) : ℚ := (pyFloat? t).getD 0

theorem numClass_not_pySpace {c : Char} (h : numClass c = true) : pySpace c = false := by
  have hne : c ≠ ' ' ∧ c ≠ '\t' ∧ c ≠ '\n' ∧ c ≠ '\r' ∧ c ≠ '\x0b' ∧ c ≠ '\x0c' := by
    refine ⟨?_, ?_, ?_, ?_, ?_, ?_⟩ <;> rintro rfl <;> exact absurd h (by decide)
  unfold pySpace
  rw [beq_eq_false_iff_ne.mpr hne.1, beq_eq_false_iff_ne.mpr hne.2.1,
    beq_eq_false_iff_ne.mpr hne.2.2.1, beq_eq_false_iff_ne.mpr hne.2.2.2.1,
    beq_eq_false_iff_ne.mpr hne.2.2.2.2.1, beq_eq_false_iff_ne.mpr hne.2.2.2.2.2]
  rfl

/-- Maximal munch: on a block of class characters followed by a
non-class character, `takeWhile` captures exactly the block. -/
theorem takeWhile_append_all {p : Char → Bool} (r : List Char)
    (hr : ∀ c ∈ r.head?, p c = false) :
    ∀ t : List Char, (∀ c ∈ t, p c = true) →
      (t ++ r).takeWhile p = t ∧ (t ++ r).dropWhile p = r := by
  intro t
  induction t with
  | nil =>
    intro _
    simp only [List.nil_append]
    cases r with
    | nil => simp
    | cons a as =>
      have ha : p a = false := hr a rfl
      simp [List.takeWhile_cons, List.dropWhile_cons, ha]
  | cons a as ih =>
    intro ht
    have ha : p a = true := ht a (by simp)
    obtain ⟨ihT, ihD⟩ := ih (fun c hc => ht c (by simp [hc]))
    simp [List.takeWhile_cons, List.dropWhile_cons, ha, ihT, ihD]

/-- A successful match of `[ML]\s*([\d.]+),([\d.]+)` at the head:
captures the two token blocks and resumes right after them. -/
theorem tryMatch_ML (m : Char) (hm : m = 'M' ∨ m = 'L') (t1 t2 r : List Char)
    (h1 : t1 ≠ []) (h1c : ∀ c ∈ t1, numClass c = true)
    (h2 : t2 ≠ []) (h2c : ∀ c ∈ t2, numClass c = true)
    (hr : ∀ c ∈ r.head?, numClass c = false) :
    tryMatch (m :: ' ' :: (t1 ++ ',' :: (t2 ++ r))) = some ((t1, t2), r) := by
  have hsp : ((' ' :: (t1 ++ ',' :: (t2 ++ r))).dropWhile pySpace) =
      t1 ++ ',' :: (t2 ++ r) := by
    rw [List.dropWhile_cons]
    simp only [show pySpace ' ' = true from rfl, if_true]
    obtain ⟨c, t1', rfl⟩ : ∃ c t1', t1 = c :: t1' := by
      cases t1 with
      | nil => exact absurd rfl h1
      | cons c t1' => exact ⟨c, t1', rfl⟩
    rw [List.cons_append, List.dropWhile_cons]
    simp [numClass_not_pySpace (h1c c (by simp))]
  have htk1 := takeWhile_append_all (',' :: (t2 ++ r))
    (by
      intro c hc
      simp only [List.head?_cons, Option.mem_def, Option.some.injEq] at hc
      subst hc
      rfl) t1 h1c
  have htk2 := takeWhile_append_all r hr t2 h2c
  simp only [tryMatch]
  rw [if_pos hm, hsp, htk1.1, htk1.2, if_neg h1]
  simp [htk2.1, htk2.2, h2]

/-- `tryMatch` fails at any character that is not `M` or `L`. -/
theorem tryMatch_not_ML (c : Char) (cs : List Char) (h : ¬ (c = 'M' ∨ c = 'L')) :
    tryMatch (c :: cs) = none := by
  simp only [tryMatch]
  rw [if_neg h]

theorem findallFuel_skip (fuel : ℕ) (c : Char) (cs : List Char)
    (h : tryMatch (c :: cs) = none) :
    findallFuel (fuel + 1) (c :: cs) = findallFuel fuel cs := by
  simp only [findallFuel, h]

theorem findallFuel_hit (fuel : ℕ) (c : Char) (cs : List Char)
    (p : List Char × List Char) (rest : List Char)
    (h : tryMatch (c :: cs) = some (p, rest)) :
    findallFuel (fuel + 1) (c :: cs) = p :: findallFuel fuel rest := by
  simp only [findallFuel, h]

/-- The remainder after a rendered pair starts with a space (or is the
closing `" Z"`), so maximal munch stops exactly at the pair. -/
theorem renderSegs_append_head (rest : List (List Char × List Char)) :
    (renderSegs rest ++ [' ', 'Z']).head? = some ' ' := by
  cases rest <;> simp [renderSegs]

/-- Scanning the rendered tail segments plus `" Z"` yields exactly the
remaining vertex pairs, for any sufficient fuel. -/
theorem findallFuel_renderSegs :
    ∀ (vs : List (List Char × List Char)) (fuel : ℕ),
      (∀ p ∈ vs, (p.1 ≠ [] ∧ ∀ c ∈ p.1, numClass c = true) ∧
        (p.2 ≠ [] ∧ ∀ c ∈ p.2, numClass c = true)) →
      (renderSegs vs ++ [' ', 'Z']).length ≤ fuel →
      findallFuel fuel (renderSegs vs ++ [' ', 'Z']) = vs := by
  intro vs
  induction vs with
  | nil =>
    intro fuel _ hlen
    simp only [renderSegs, List.nil_append, List.length_cons, List.length_nil] at hlen ⊢
    obtain ⟨f, rfl⟩ : ∃ f, fuel = f + 1 + 1 := ⟨fuel - 2, by omega⟩
    rw [show ([' ', 'Z'] : List Char) = ' ' :: 'Z' :: [] from rfl]
    rw [findallFuel_skip _ _ _ (tryMatch_not_ML ' ' _ (by decide))]
    rw [findallFuel_skip _ _ _ (tryMatch_not_ML 'Z' _ (by decide))]
    cases f <;> rfl
  | cons p rest ih =>
    intro fuel hgood hlen
    have hassoc : renderSegs (p :: rest) ++ [' ', 'Z'] =
        ' ' :: 'L' :: ' ' :: (p.1 ++ ',' :: (p.2 ++ (renderSegs rest ++ [' ', 'Z']))) := by
      simp [renderSegs, List.append_assoc]
    rw [hassoc] at hlen ⊢
    obtain ⟨f, rfl⟩ : ∃ f, fuel = f + 1 + 1 := by
      refine ⟨fuel - 2, ?_⟩
      simp only [List.length_cons] at hlen
      omega
    have hp := hgood p (by simp)
    have hhead : ∀ c ∈ (renderSegs rest ++ [' ', 'Z']).head?, numClass c = false := by
      intro c hc
      rw [renderSegs_append_head] at hc
      simp only [Option.mem_def, Option.some.injEq] at hc
      subst hc
      rfl
    rw [findallFuel_skip _ _ _ (tryMatch_not_ML ' ' _ (by decide))]
    rw [findallFuel_hit _ _ _ _ _
      (tryMatch_ML 'L' (Or.inr rfl) p.1 p.2 (renderSegs rest ++ [' ', 'Z'])
        hp.1.1 hp.1.2 hp.2.1 hp.2.2 hhead)]
    congr 1
    apply ih f (fun q hq => hgood q (List.mem_cons_of_mem p hq))
    simp only [List.length_cons, List.length_append] at hlen ⊢
    omega

/-- Scanning a full rendered path yields exactly its vertex pairs. -/
theorem findall_renderPath (vs : List (List Char × List Char))
    (hne : vs ≠ [])
    (hgood : ∀ p ∈ vs, (p.1 ≠ [] ∧ ∀ c ∈ p.1, numClass c = true) ∧
      (p.2 ≠ [] ∧ ∀ c ∈ p.2, numClass c = true)) :
    findall (renderPath vs) = vs := by
  obtain ⟨p, rest, rfl⟩ : ∃ p rest, vs = p :: rest := by
    cases vs with
    | nil => exact absurd rfl hne
    | cons p rest => exact ⟨p, rest, rfl⟩
  have hp := hgood p (by simp)
  have hhead : ∀ c ∈ (renderSegs rest ++ [' ', 'Z']).head?, numClass c = false := by
    intro c hc
    rw [renderSegs_append_head] at hc
    simp only [Option.mem_def, Option.some.injEq] at hc
    subst hc
    rfl
  unfold findall
  rw [show renderPath (p :: rest) =
    'M' :: ' ' :: (p.1 ++ ',' :: (p.2 ++ (renderSegs rest ++ [' ', 'Z']))) from rfl]
  rw [List.length_cons]
  rw [findallFuel_hit _ _ _ _ _
    (tryMatch_ML 'M' (Or.inl rfl) p.1 p.2 (renderSegs rest ++ [' ', 'Z'])
      hp.1.1 hp.1.2 hp.2.1 hp.2.2 hhead)]
  congr 1
  apply findallFuel_renderSegs rest _ (fun q hq => hgood q (List.mem_cons_of_mem p hq))
  simp only [List.length_cons, List.length_append]
  omega

/-- Converting a list of parseable token pairs with `float` succeeds and
yields their numeric values in order. -/
theorem mapM_tokVal :
    ∀ vs : List (List Char × List Char),
      (∀ p ∈ vs, GoodTok p.1 ∧ GoodTok p.2) →
      (List.mapM (fun p => do
        let a ← pyFloat? p.1
        let b ← pyFloat? p.2
        pure ((a : ℚ), (b : ℚ))) vs : Option (List (ℚ × ℚ))) =
        some (vs.map (fun p => (tokVal p.1, tokVal p.2))) := by
  intro vs
  induction vs with
  | nil => intro _; rfl
  | cons p rest ih =>
    intro h
    have hval : ∀ t : List Char, (pyFloat? t).isSome = true →
        pyFloat? t = some (tokVal t) := by
      intro t ht
      cases hv : pyFloat? t with
      | none => rw [hv] at ht; simp at ht
      | some v => simp [tokVal, hv]
    have hp1 := hval p.1 (h p (by simp)).1.2.2
    have hp2 := hval p.2 (h p (by simp)).2.2.2
    rw [List.mapM_cons, ih (fun q hq => h q (List.mem_cons_of_mem p hq))]
    simp [hp1, hp2]

/-- C8 (amended): for every nonempty vertex list whose coordinates are
unsigned decimal numerals, the rendered path `M x,y (L x,y)* Z` parses
back to exactly the listed vertices in their written order, and
`mask_from_closed_path` returns the mask classifying every pixel centre
with the (spec-modelled) standard even-odd point-in-polygon test
against that polygon.  (Negative coordinates are excluded: the regex
cannot match them, see the counterexample.) -/
theorem mask_from_closed_path_parses (vs : List (List Char × List Char))
    (hne : vs ≠ [])
    (hgood : ∀ p ∈ vs, GoodTok p.1 ∧ GoodTok p.2) :
    parse_svg_path (renderPath vs) =
      Except.ok (vs.map (fun p => (tokVal p.1, tokVal p.2))) ∧
    mask_from_closed_path (renderPath vs) =
      Except.ok (fun (x y : ℕ) =>
        pointInPolygon (vs.map (fun p => (tokVal p.1, tokVal p.2))) (x : ℚ) (y : ℚ)) := by
  have hfind := findall_renderPath vs hne
    (fun p hp => ⟨⟨(hgood p hp).1.1, (hgood p hp).1.2.1⟩,
      ⟨(hgood p hp).2.1, (hgood p hp).2.2.1⟩⟩)
  have hmap := mapM_tokVal vs hgood
  have hparse : parse_svg_path (renderPath vs) =
      Except.ok (vs.map (fun p => (tokVal p.1, tokVal p.2))) := by
    unfold parse_svg_path
    rw [hfind, hmap]
  refine ⟨hparse, ?_⟩
  unfold mask_from_closed_path
  rw [hparse]
  rfl

/-- Witness for the amended C8 at the two-vertex path `M 1,2 L 3,0 Z`
(vertices `(1,2)` and `(3,0)`). -/
theorem mask_from_closed_path_parses_witness :
    parse_svg_path (renderPath [(['1'], ['2']), (['3'], ['0'])]) =
      Except.ok [(1, 2), (3, 0)] := by
  have e1 : pyFloat? ['1'] = some 1 := by
    unfold pyFloat?
    rw [if_neg (by decide), if_pos (by decide)]
    norm_num [show digitsVal ['1'] = 1 from rfl]
  have e2 : pyFloat? ['2'] = some 2 := by
    unfold pyFloat?
    rw [if_neg (by decide), if_pos (by decide)]
    norm_num [show digitsVal ['2'] = 2 from rfl]
  have e3 : pyFloat? ['3'] = some 3 := by
    unfold pyFloat?
    rw [if_neg (by decide), if_pos (by decide)]
    norm_num [show digitsVal ['3'] = 3 from rfl]
  have e0 : pyFloat? ['0'] = some 0 := by
    unfold pyFloat?
    rw [if_neg (by decide), if_pos (by decide)]
    norm_num [show digitsVal ['0'] = 0 from rfl]
  have h := (mask_from_closed_path_parses [(['1'], ['2']), (['3'], ['0'])]
    (by simp)
    (by
      intro p hp
      simp only [List.mem_cons, List.not_mem_nil, or_false] at hp
      rcases hp with rfl | rfl
      · exact ⟨⟨by simp, by decide, by rw [e1]; rfl⟩, ⟨by simp, by decide, by rw [e2]; rfl⟩⟩
      · exact ⟨⟨by simp, by decide, by rw [e3]; rfl⟩,
          ⟨by simp, by decide, by rw [e0]; rfl⟩⟩)).1
  rw [h]
  simp [tokVal, e1, e2, e3, e0]

end GONet
